import Mathlib

/-!
# MyBoard backend (`src/server.js`): request handlers over explicit state

A shallow embedding of the Express handlers of `src/server.js`.

* The process-wide handle `let mydb;` is the field `Server.mydb`; it is unset
  until `client.connect()` has resolved, and every `mydb.collection(..)` on the
  unset handle throws.
* A collection is the list of its documents in insertion order.  The driver
  generated `_id` of an `insertOne` is an explicit argument of the handler, and
  the unique index on `_id` rejects an id that is already present.
* `try { .. } catch (error) { res.status(500).. }` is a `match` on an `Except`.
  Every fault of the model (unset handle, rejected id string, duplicate key)
  is raised before the handler has written anything, so the `catch` branch
  returns the server as it was.
* A field of the body of a post route is absent (`none`) or any JSON value, and
  `!title` is JavaScript truthiness on it. The account routes take `username`
  and `password` as texts, as their annotations and the data model have them.
* `bcrypt` is an argument (`Bcrypt`), its random salt an explicit argument.
-/

set_option autoImplicit false

namespace MyBoard

/-! ## ObjectId -/

/-- What a `try` block of the server can catch. -/
inductive Fault where
  | bsonError
  | typeError
  | duplicateKey
  deriving DecidableEq, Repr

deriving instance DecidableEq for Except

/-- Twelve bytes, kept as their twenty-four hexadecimal digits. -/
structure ObjectId where
  digits : List (Fin 16)
  size : digits.length = 24
  deriving DecidableEq

/-- Value of one hexadecimal character, either case (`/^[0-9a-fA-F]{24}$/`). -/
def hexVal (c : Char) : Option (Fin 16) :=
  let n := c.toNat
  if 48 ≤ n ∧ n ≤ 57 then some (Fin.ofNat (n - 48))
  else if 97 ≤ n ∧ n ≤ 102 then some (Fin.ofNat (n - 87))
  else if 65 ≤ n ∧ n ≤ 70 then some (Fin.ofNat (n - 55))
  else none

/-- Lower-case hexadecimal character of a digit. -/
def hexChar (d : Fin 16) : Char :=
  if d.val < 10 then Char.ofNat (48 + d.val) else Char.ofNat (87 + d.val)

/-- Decode a list of characters, failing on the first one that is not hexadecimal. -/
def hexDecode : List Char → Option (List (Fin 16))
  | [] => some []
  | c :: cs =>
    match hexVal c, hexDecode cs with
    | some d, some ds => some (d :: ds)
    | _, _ => none

/-- The constructor `new ObjectId(s)` on a string: a string of 24 hexadecimal
characters is decoded, any other string makes the constructor throw. (Drivers
before bson 5 also took any 12-byte string; no statement below depends on what
happens to such a string.) -/
def ObjectId.new (s : String) : Except Fault ObjectId :=
  match hexDecode s.data with
  | some ds => if h : ds.length = 24 then .ok ⟨ds, h⟩ else .error .bsonError
  | none => .error .bsonError

/-- The method `toHexString()`, which is also what `JSON.stringify` shows of an id. -/
def ObjectId.toHexString (o : ObjectId) : String :=
  String.mk (o.digits.map hexChar)

/-! ## Documents and JSON bodies -/

/-- A JSON value: what `express.json()` hands over as a field of `req.body`,
what a document stores and what `res.json(..)` sends. A number is the rational
that the parsed double denotes, so both zeros are `0`; a literal beyond the
range of a double is not told apart from a large number, being truthy like it. -/
inductive JVal where
  | null
  | bool (b : Bool)
  | number (q : ℚ)
  | text (s : String)
  | array (items : List JVal)
  | object (fields : List (String × JVal))

mutual
/-- Equality of two JSON values is decidable. -/
def JVal.decEq : (a b : JVal) → Decidable (a = b)
  | .null, .null => isTrue rfl
  | .null, .bool _ => isFalse (fun e => JVal.noConfusion e)
  | .null, .number _ => isFalse (fun e => JVal.noConfusion e)
  | .null, .text _ => isFalse (fun e => JVal.noConfusion e)
  | .null, .array _ => isFalse (fun e => JVal.noConfusion e)
  | .null, .object _ => isFalse (fun e => JVal.noConfusion e)
  | .bool _, .null => isFalse (fun e => JVal.noConfusion e)
  | .bool x, .bool y =>
    if h : x = y then isTrue (h ▸ rfl) else isFalse (fun e => h (JVal.bool.inj e))
  | .bool _, .number _ => isFalse (fun e => JVal.noConfusion e)
  | .bool _, .text _ => isFalse (fun e => JVal.noConfusion e)
  | .bool _, .array _ => isFalse (fun e => JVal.noConfusion e)
  | .bool _, .object _ => isFalse (fun e => JVal.noConfusion e)
  | .number _, .null => isFalse (fun e => JVal.noConfusion e)
  | .number _, .bool _ => isFalse (fun e => JVal.noConfusion e)
  | .number x, .number y =>
    if h : x = y then isTrue (h ▸ rfl) else isFalse (fun e => h (JVal.number.inj e))
  | .number _, .text _ => isFalse (fun e => JVal.noConfusion e)
  | .number _, .array _ => isFalse (fun e => JVal.noConfusion e)
  | .number _, .object _ => isFalse (fun e => JVal.noConfusion e)
  | .text _, .null => isFalse (fun e => JVal.noConfusion e)
  | .text _, .bool _ => isFalse (fun e => JVal.noConfusion e)
  | .text _, .number _ => isFalse (fun e => JVal.noConfusion e)
  | .text x, .text y =>
    if h : x = y then isTrue (h ▸ rfl) else isFalse (fun e => h (JVal.text.inj e))
  | .text _, .array _ => isFalse (fun e => JVal.noConfusion e)
  | .text _, .object _ => isFalse (fun e => JVal.noConfusion e)
  | .array _, .null => isFalse (fun e => JVal.noConfusion e)
  | .array _, .bool _ => isFalse (fun e => JVal.noConfusion e)
  | .array _, .number _ => isFalse (fun e => JVal.noConfusion e)
  | .array _, .text _ => isFalse (fun e => JVal.noConfusion e)
  | .array x, .array y =>
    match JVal.decEqItems x y with
    | isTrue h => isTrue (h ▸ rfl)
    | isFalse h => isFalse (fun e => h (JVal.array.inj e))
  | .array _, .object _ => isFalse (fun e => JVal.noConfusion e)
  | .object _, .null => isFalse (fun e => JVal.noConfusion e)
  | .object _, .bool _ => isFalse (fun e => JVal.noConfusion e)
  | .object _, .number _ => isFalse (fun e => JVal.noConfusion e)
  | .object _, .text _ => isFalse (fun e => JVal.noConfusion e)
  | .object _, .array _ => isFalse (fun e => JVal.noConfusion e)
  | .object x, .object y =>
    match JVal.decEqFields x y with
    | isTrue h => isTrue (h ▸ rfl)
    | isFalse h => isFalse (fun e => h (JVal.object.inj e))
/-- Equality of two arrays of JSON values is decidable. -/
def JVal.decEqItems : (a b : List JVal) → Decidable (a = b)
  | [], [] => isTrue rfl
  | [], _ :: _ => isFalse (fun e => List.noConfusion e)
  | _ :: _, [] => isFalse (fun e => List.noConfusion e)
  | x :: xs, y :: ys =>
    match JVal.decEq x y, JVal.decEqItems xs ys with
    | isTrue h, isTrue hs => isTrue (h ▸ hs ▸ rfl)
    | isFalse h, _ => isFalse (fun e => h (List.cons.inj e).1)
    | _, isFalse hs => isFalse (fun e => hs (List.cons.inj e).2)
/-- Equality of two lists of JSON fields is decidable. -/
def JVal.decEqFields : (a b : List (String × JVal)) → Decidable (a = b)
  | [], [] => isTrue rfl
  | [], _ :: _ => isFalse (fun e => List.noConfusion e)
  | _ :: _, [] => isFalse (fun e => List.noConfusion e)
  | (k, x) :: xs, (l, y) :: ys =>
    match String.decEq k l, JVal.decEq x y, JVal.decEqFields xs ys with
    | isTrue hk, isTrue h, isTrue hs => isTrue (hk ▸ h ▸ hs ▸ rfl)
    | isFalse hk, _, _ => isFalse (fun e => hk (Prod.mk.inj (List.cons.inj e).1).1)
    | _, isFalse h, _ => isFalse (fun e => h (Prod.mk.inj (List.cons.inj e).1).2)
    | _, _, isFalse hs => isFalse (fun e => hs (List.cons.inj e).2)
end

instance : DecidableEq JVal := JVal.decEq

/-- A JSON object, as an ordered list of fields. -/
abbrev JObject := List (String × JVal)

/-- A response body: nothing (`send()`), `null`, one object, or an array of objects. -/
inductive Body where
  | empty
  | null
  | object (o : JObject)
  | array (items : List JObject)
  deriving DecidableEq

mutual
/-- Names of the fields that occur in a JSON value, at any depth. -/
def JVal.keys : JVal → List String
  | .object fs => JVal.keysFields fs
  | .array xs => JVal.keysItems xs
  | _ => []
/-- Names of the fields of a list of fields, with those nested in their values. -/
def JVal.keysFields : List (String × JVal) → List String
  | [] => []
  | (k, v) :: rest => k :: (JVal.keys v ++ JVal.keysFields rest)
/-- Names of the fields that occur in the items of an array. -/
def JVal.keysItems : List JVal → List String
  | [] => []
  | v :: rest => JVal.keys v ++ JVal.keysItems rest
end

/-- Names of all fields of an object, at any depth. -/
def JObject.keys (o : JObject) : List String :=
  JVal.keysFields o

/-- Names of all fields that occur anywhere in a body. -/
def Body.keys : Body → List String
  | .empty => []
  | .null => []
  | .object o => JObject.keys o
  | .array items => items.flatMap JObject.keys

/-- What `res.status(..).json(..)` or `res.status(..).send()` left in the response. -/
structure Response where
  status : Nat
  body : Body
  deriving DecidableEq

/-- A document of the collection `post`; `title` and `content` hold whatever
JSON value the request body gave. -/
structure Post where
  _id : ObjectId
  title : JVal
  content : JVal
  deriving DecidableEq

/-- A document of the collection `user`; `password` holds the bcrypt hash. -/
structure User where
  _id : ObjectId
  username : String
  password : String
  deriving DecidableEq

/-- JSON form of a post document. -/
def Post.toJSON (p : Post) : JObject :=
  [("_id", .text p._id.toHexString), ("title", p.title), ("content", p.content)]

/-- JSON form of a user document. -/
def User.toJSON (u : User) : JObject :=
  [("_id", .text u._id.toHexString), ("username", .text u.username),
   ("password", .text u.password)]

/-- The projection `{ key: 0 }`: the document without that field. -/
def projectOut (key : String) (o : JObject) : JObject :=
  o.filter fun kv => kv.1 != key

/-- The database `myboard`. -/
structure Db where
  post : List Post
  user : List User
  deriving DecidableEq

/-- The server process: `let mydb;`, assigned once the client has connected. -/
structure Server where
  mydb : Option Db
  deriving DecidableEq

/-- The session of a request: `req.session`, with its `user` property. -/
structure Session where
  user : Option User
  deriving DecidableEq

/-- `mydb.collection('post')`; throws a `TypeError` while `mydb` is unset. -/
def Server.db (sv : Server) : Except Fault Db :=
  match sv.mydb with
  | some db => .ok db
  | none => .error .typeError

/-! ## Collection operations -/

/-- `findOne(filter)`: the first document that matches. -/
def findOne {α : Type} (filter : α → Bool) (coll : List α) : Option α :=
  coll.find? filter

/-- `deleteOne(filter)`: removes the first match; gives the collection and `deletedCount`. -/
def deleteOne {α : Type} (filter : α → Bool) : List α → List α × Nat
  | [] => ([], 0)
  | d :: ds =>
    if filter d then (ds, 1)
    else let r := deleteOne filter ds; (d :: r.1, r.2)

/-- `updateOne(filter, update)`: rewrites the first match; gives the collection
and `matchedCount`. -/
def updateOne {α : Type} (filter : α → Bool) (update : α → α) : List α → List α × Nat
  | [] => ([], 0)
  | d :: ds =>
    if filter d then (update d :: ds, 1)
    else let r := updateOne filter update ds; (d :: r.1, r.2)

/-- `insertOne(doc)` with the generated id already in `doc`: the unique index
on `_id` rejects an id that some document already has. -/
def insertOne {α : Type} (idOf : α → ObjectId) (doc : α) (coll : List α) :
    Except Fault (List α) :=
  if coll.any (fun d => idOf d == idOf doc) then .error .duplicateKey
  else .ok (coll ++ [doc])

/-- JavaScript truthiness of a field of `req.body`, so that `!field` is its
negation: an absent field is `undefined`; `null`, `false`, `0` and `""` are
falsy; every other number or text, every array and every object is truthy. -/
def truthy : Option JVal → Bool
  | none => false
  | some .null => false
  | some (.bool b) => b
  | some (.number q) => q != 0
  | some (.text s) => s != ""
  | some (.array _) => true
  | some (.object _) => true

/-- The fields that the presence check of the post routes turns down, listed
value by value: absent, `null`, `false`, `0` or the empty text. -/
def absentOrFalsy (v : Option JVal) : Prop :=
  v = none ∨ v = some .null ∨ v = some (.bool false) ∨ v = some (.number 0)
    ∨ v = some (.text "")

/-- The body `{ error: msg }`. -/
def errorBody (msg : String) : Body := .object [("error", .text msg)]

/-- The body `{ message: msg }`. -/
def messageBody (msg : String) : Body := .object [("message", .text msg)]

/-- The `catch` branch shared by the handlers. -/
def dbError : Response := ⟨500, errorBody "Database query error"⟩

/-- The 404 response of the post routes. -/
def postNotFound : Response := ⟨404, errorBody "Post not found"⟩

/-! ## Post routes -/

/-- The `try` block of `app.get("/content/:id")`. -/
def getContentTry (sv : Server) (postId : String) : Except Fault Response := do
  let db ← sv.db
  let oid ← ObjectId.new postId
  match findOne (fun p => p._id == oid) db.post with
  | none => pure postNotFound
  | some post => pure ⟨200, .object post.toJSON⟩

/-- The handler `app.get("/content/:id")`. -/
def getContent (sv : Server) (postId : String) : Response :=
  match getContentTry sv postId with
  | .ok r => r
  | .error _ => dbError

/-- The `try` block of `app.post("/content")`; `gen` is the id the driver generates. -/
def postContentTry (sv : Server) (gen : ObjectId) (title content : Option JVal) :
    Except Fault (Response × Server) := do
  if !truthy title || !truthy content then
    pure (⟨400, errorBody "Title and content are required"⟩, sv)
  else
    let db ← sv.db
    let posts ← insertOne Post._id ⟨gen, title.getD .null, content.getD .null⟩ db.post
    let sv' : Server := ⟨some { db with post := posts }⟩
    match findOne (fun p => p._id == gen) posts with
    | some newPost => pure (⟨201, .object newPost.toJSON⟩, sv')
    | none => pure (⟨201, .null⟩, sv')

/-- The handler `app.post("/content")`. -/
def postContent (sv : Server) (gen : ObjectId) (title content : Option JVal) :
    Response × Server :=
  match postContentTry sv gen title content with
  | .ok r => r
  | .error _ => (dbError, sv)

/-- The `try` block of `app.delete("/content/:id")`. -/
def deleteContentTry (sv : Server) (postId : String) : Except Fault (Response × Server) := do
  let db ← sv.db
  let oid ← ObjectId.new postId
  let result := deleteOne (fun p => p._id == oid) db.post
  let sv' : Server := ⟨some { db with post := result.1 }⟩
  if result.2 = 0 then
    pure (postNotFound, sv')
  else
    pure (⟨204, .empty⟩, sv')

/-- The handler `app.delete("/content/:id")`. -/
def deleteContent (sv : Server) (postId : String) : Response × Server :=
  match deleteContentTry sv postId with
  | .ok r => r
  | .error _ => (dbError, sv)

/-- The `try` block of `app.put("/content/:id")`. -/
def putContentTry (sv : Server) (postId : String) (title content : Option JVal) :
    Except Fault (Response × Server) := do
  if !truthy title || !truthy content then
    pure (⟨400, errorBody "Title and content are required"⟩, sv)
  else
    let db ← sv.db
    let oid ← ObjectId.new postId
    let result := updateOne (fun p => p._id == oid)
      (fun p => { p with title := title.getD .null, content := content.getD .null }) db.post
    let sv' : Server := ⟨some { db with post := result.1 }⟩
    if result.2 = 0 then
      pure (postNotFound, sv')
    else
      let db2 ← sv'.db
      let oid2 ← ObjectId.new postId
      match findOne (fun p => p._id == oid2) db2.post with
      | some updatedPost => pure (⟨200, .object updatedPost.toJSON⟩, sv')
      | none => pure (⟨200, .null⟩, sv')

/-- The handler `app.put("/content/:id")`. -/
def putContent (sv : Server) (postId : String) (title content : Option JVal) :
    Response × Server :=
  match putContentTry sv postId title content with
  | .ok r => r
  | .error _ => (dbError, sv)

/-- The handler `app.get("/list")`. -/
def getList (sv : Server) : Response :=
  match sv.db with
  | .ok db => ⟨200, .array (db.post.map Post.toJSON)⟩
  | .error _ => dbError

/-! ## Accounts and sessions -/

/-- The two functions of `bcrypt` the server calls; `hash` also receives the
salt it would draw at random. -/
structure Bcrypt where
  hash : String → String → String
  compare : String → String → Bool

/-- The `try` block of `app.post("/signup")`: response, server and session
afterwards. The block never assigns to `req.session`. -/
def signupTry (bc : Bcrypt) (sv : Server) (session : Session) (gen : ObjectId) (salt : String)
    (username password : Option String) : Except Fault (Response × Server × Session) := do
  if !truthy (username.map .text) || !truthy (password.map .text) then
    pure (⟨400, errorBody "Username and password are required"⟩, sv, session)
  else
    let db ← sv.db
    match findOne (fun u => u.username == username.getD "") db.user with
    | some _ => pure (⟨400, errorBody "이미 존재하는 사용자명입니다."⟩, sv, session)
    | none =>
      let hashedPassword := bc.hash (password.getD "") salt
      let users ← insertOne User._id ⟨gen, username.getD "", hashedPassword⟩ db.user
      pure (⟨201, messageBody "회원가입이 완료되었습니다."⟩, ⟨some { db with user := users }⟩,
        session)

/-- The handler `app.post("/signup")`. -/
def signup (bc : Bcrypt) (sv : Server) (session : Session) (gen : ObjectId) (salt : String)
    (username password : Option String) : Response × Server × Session :=
  match signupTry bc sv session gen salt username password with
  | .ok r => r
  | .error _ => (dbError, sv, session)

/-- The `try` block of `app.post("/login")`: response and session afterwards. -/
def loginTry (bc : Bcrypt) (sv : Server) (session : Session)
    (username password : Option String) : Except Fault (Response × Session) := do
  if !truthy (username.map .text) || !truthy (password.map .text) then
    pure (⟨400, errorBody "Username and password are required"⟩, session)
  else
    let db ← sv.db
    match findOne (fun u => u.username == username.getD "") db.user with
    | none => pure (⟨401, errorBody "사용자가 존재하지 않습니다."⟩, session)
    | some user =>
      let passwordMatch := bc.compare (password.getD "") user.password
      if !passwordMatch then
        pure (⟨401, errorBody "비밀번호가 일치하지 않습니다."⟩, session)
      else
        let session' : Session := { session with user := some user }
        pure (⟨200, .object [("message", .text "로그인 성공"),
          ("user", .object [("username", .text (username.getD ""))])]⟩, session')

/-- The handler `app.post("/login")`. -/
def login (bc : Bcrypt) (sv : Server) (session : Session)
    (username password : Option String) : Response × Session :=
  match loginTry bc sv session username password with
  | .ok r => r
  | .error _ => (dbError, session)

/-- The handler `app.get("/users")`, with the projection `{ password: 0 }`. -/
def getUsers (sv : Server) : Response :=
  match sv.db with
  | .ok db => ⟨200, .array (db.user.map fun u => projectOut "password" u.toJSON)⟩
  | .error _ => dbError

/-! ## The login gate -/

/-- What a middleware has done so far: the session, the response written (if
any) and how many times `next()` was called. -/
structure Exchange where
  session : Session
  res : Option Response
  nextCalls : Nat
  deriving DecidableEq

/-- The middleware `checkLogin(req, res, next)`. -/
def checkLogin (x : Exchange) : Exchange :=
  match x.session.user with
  | some _ => { x with nextCalls := x.nextCalls + 1 }
  | none => { x with res := some ⟨401, errorBody "로그인이 필요합니다."⟩ }

/-- The route handler of `app.get("/welcome")`, behind the gate. -/
def welcomeHandler (x : Exchange) : Exchange :=
  match x.session.user with
  | some u => { x with res := some ⟨200, messageBody ("안녕하세요, " ++ u.username ++ "님")⟩ }
  | none => { x with res := some ⟨401, errorBody "로그인이 필요합니다."⟩ }

/-- The route `app.get("/welcome", checkLogin, handler)`: the handler runs only
when the gate has called `next()`. -/
def welcome (session : Session) : Exchange :=
  let x := checkLogin ⟨session, none, 0⟩
  if x.nextCalls = 0 then x else welcomeHandler x

/-- One `POST /signup` request together with what the driver and bcrypt draw for it. -/
structure SignupRequest where
  session : Session
  gen : ObjectId
  salt : String
  username : Option String
  password : Option String

/-- The server after a sequence of signups handled one after another. -/
def runSignups (bc : Bcrypt) (sv : Server) (reqs : List SignupRequest) : Server :=
  reqs.foldl (fun s r => (signup bc s r.session r.gen r.salt r.username r.password).2.1) sv

/-- No two post documents share an `_id` (the unique index of the collection). -/
def uniqueIds (posts : List Post) : Prop :=
  (posts.map Post._id).Nodup

/-- No two user documents share a username. -/
def uniqueUsernames (users : List User) : Prop :=
  (users.map User.username).Nodup

/-- The state invariant of the user collection: the database is connected,
usernames are pairwise distinct and none is empty. -/
def usersOk (sv : Server) : Prop :=
  ∃ db, sv.mydb = some db ∧ uniqueUsernames db.user ∧ ∀ u ∈ db.user, u.username ≠ ""

/-- The server is connected and its post collection has pairwise distinct ids. -/
def postsOk (sv : Server) : Prop :=
  ∃ db, sv.mydb = some db ∧ uniqueIds db.post

/-- An id for examples: the digit `d` repeated. -/
def ObjectId.rep (d : Fin 16) : ObjectId := ⟨List.replicate 24 d, by simp⟩

/-- A toy `bcrypt` for examples: the hash is salt, a separator and the plaintext. -/
def toyBcrypt : Bcrypt where
  hash := fun p s => s ++ "$" ++ p
  compare := fun p h => h.data.drop (h.data.length - p.data.length) == p.data

/-! ## Identifiers: decoding inverts `toHexString` -/

theorem toyBcrypt_verifies (p s : String) : toyBcrypt.compare p (toyBcrypt.hash p s) = true := by
  simp only [toyBcrypt, String.data_append, List.length_append, Nat.add_sub_cancel, beq_iff_eq]
  exact List.drop_left' (by simp)

theorem hexVal_hexChar : ∀ d : Fin 16, hexVal (hexChar d) = some d := by decide

theorem hexDecode_map_hexChar (ds : List (Fin 16)) : hexDecode (ds.map hexChar) = some ds := by
  induction ds with
  | nil => rfl
  | cons d ds ih => simp [hexDecode, hexVal_hexChar, ih]

theorem ObjectId.new_toHexString (o : ObjectId) : ObjectId.new o.toHexString = .ok o := by
  cases o with
  | mk ds h => simp [ObjectId.new, ObjectId.toHexString, hexDecode_map_hexChar, h]

theorem ObjectId.toHexString_injective (a b : ObjectId) (h : a.toHexString = b.toHexString) :
    a = b := by
  have ha := ObjectId.new_toHexString a
  rw [h, ObjectId.new_toHexString b] at ha
  exact (Except.ok.inj ha).symm

/-! ## Collection operations -/

theorem findOne_eq_none_iff {α : Type} (f : α → Bool) (l : List α) :
    findOne f l = none ↔ ∀ x ∈ l, f x = false := by
  simp [findOne, List.find?_eq_none]

theorem deleteOne_of_no_match {α : Type} (f : α → Bool) (l : List α)
    (h : ∀ x ∈ l, f x = false) : deleteOne f l = (l, 0) := by
  induction l with
  | nil => rfl
  | cons d ds ih =>
    have hd : f d = false := h d (List.mem_cons_self _ _)
    have hds := ih (fun x hx => h x (List.mem_cons_of_mem _ hx))
    simp [deleteOne, hd, hds]

theorem updateOne_of_no_match {α : Type} (f : α → Bool) (u : α → α) (l : List α)
    (h : ∀ x ∈ l, f x = false) : updateOne f u l = (l, 0) := by
  induction l with
  | nil => rfl
  | cons d ds ih =>
    have hd : f d = false := h d (List.mem_cons_self _ _)
    have hds := ih (fun x hx => h x (List.mem_cons_of_mem _ hx))
    simp [updateOne, hd, hds]

theorem deleteOne_of_unique (l : List Post) (oid : ObjectId) (hu : uniqueIds l)
    (hm : oid ∈ l.map Post._id) :
    deleteOne (fun p => p._id == oid) l = (l.filter (fun p => p._id != oid), 1) := by
  induction l with
  | nil => simp at hm
  | cons d ds ih =>
    unfold uniqueIds at hu
    rw [List.map_cons, List.nodup_cons] at hu
    by_cases hd : d._id = oid
    · have hnot : ∀ x ∈ ds, (x._id != oid) = true := by
        intro x hx
        have : x._id ≠ oid := by
          intro hxe
          exact hu.1 (hd ▸ hxe ▸ List.mem_map_of_mem Post._id hx)
        simpa using this
      have hfil : ds.filter (fun p => p._id != oid) = ds := List.filter_eq_self.mpr hnot
      simp [deleteOne, hd, hfil]
    · have hm2 : oid ∈ ds.map Post._id := by
        rw [List.map_cons, List.mem_cons] at hm
        rcases hm with h | h
        · exact absurd h.symm hd
        · exact h
      have := ih hu.2 hm2
      simp [deleteOne, hd, this]

theorem updateOne_of_unique (l : List Post) (oid : ObjectId) (u : Post → Post)
    (hu : uniqueIds l) (hm : oid ∈ l.map Post._id) :
    updateOne (fun p => p._id == oid) u l
      = (l.map (fun p => if p._id = oid then u p else p), 1) := by
  induction l with
  | nil => simp at hm
  | cons d ds ih =>
    unfold uniqueIds at hu
    rw [List.map_cons, List.nodup_cons] at hu
    by_cases hd : d._id = oid
    · have hmap : ds.map (fun p => if p._id = oid then u p else p) = ds := by
        conv_rhs => rw [← List.map_id ds]
        apply List.map_congr_left
        intro x hx
        have : x._id ≠ oid := by
          intro hxe
          exact hu.1 (hd ▸ hxe ▸ List.mem_map_of_mem Post._id hx)
        simp [this]
      simp [updateOne, hd, hmap]
    · have hm2 : oid ∈ ds.map Post._id := by
        rw [List.map_cons, List.mem_cons] at hm
        rcases hm with h | h
        · exact absurd h.symm hd
        · exact h
      have := ih hu.2 hm2
      simp [updateOne, hd, this]

theorem findOne_after_update (l : List Post) (oid : ObjectId) (q : Post) (hq : q._id = oid)
    (hm : oid ∈ l.map Post._id) :
    findOne (fun p => p._id == oid) (l.map (fun p => if p._id = oid then q else p)) = some q := by
  induction l with
  | nil => simp at hm
  | cons d ds ih =>
    by_cases hd : d._id = oid
    · simp [findOne, hd, hq]
    · have hm2 : oid ∈ ds.map Post._id := by
        rw [List.map_cons, List.mem_cons] at hm
        rcases hm with h | h
        · exact absurd h.symm hd
        · exact h
      have := ih hm2
      simp only [findOne] at this
      simp [findOne, hd, this]

theorem findOne_after_insert {α : Type} (f : α → Bool) (l : List α) (d : α)
    (hl : ∀ x ∈ l, f x = false) (hd : f d = true) : findOne f (l ++ [d]) = some d := by
  have h := (findOne_eq_none_iff f l).mpr hl
  simp only [findOne] at h
  simp [findOne, List.find?_append, h, hd]

theorem insertOne_ok_iff {α : Type} (idOf : α → ObjectId) (doc : α) (coll : List α) :
    insertOne idOf doc coll ≠ .error .duplicateKey ↔ ∀ d ∈ coll, idOf d ≠ idOf doc := by
  unfold insertOne
  by_cases h : coll.any (fun d => idOf d == idOf doc) = true
  · simp only [h, if_true, ne_eq, not_true_eq_false, false_iff]
    intro hall
    rw [List.any_eq_true] at h
    obtain ⟨x, hx, hxe⟩ := h
    exact hall x hx (by simpa using hxe)
  · simp only [h]
    simp only [Bool.not_eq_true, List.any_eq_false, beq_iff_eq] at h
    simp
    exact h

theorem insertOne_of_fresh {α : Type} (idOf : α → ObjectId) (doc : α) (coll : List α)
    (h : ∀ d ∈ coll, idOf d ≠ idOf doc) : insertOne idOf doc coll = .ok (coll ++ [doc]) := by
  unfold insertOne
  have : coll.any (fun d => idOf d == idOf doc) = false := by
    simpa [List.any_eq_false] using h
  simp [this]

/-! ## Post routes -/

theorem truthy_text (t : String) (ht : t ≠ "") : truthy (some (.text t)) = true := by
  simp [truthy, ht]

theorem new_abc : ObjectId.new "abc" = .error .bsonError := by decide

theorem new_12345 : ObjectId.new "12345" = .error .bsonError := by decide

theorem getContent_of_throw (db : Db) (postId : String)
    (h : ObjectId.new postId = .error .bsonError) : getContent ⟨some db⟩ postId = dbError := by
  simp [getContent, getContentTry, Server.db, h, bind, Except.bind]

theorem deleteContent_of_throw (db : Db) (postId : String)
    (h : ObjectId.new postId = .error .bsonError) :
    deleteContent ⟨some db⟩ postId = (dbError, ⟨some db⟩) := by
  simp [deleteContent, deleteContentTry, Server.db, h, bind, Except.bind]

theorem putContent_of_throw (db : Db) (postId : String) (t c : JVal)
    (ht : truthy (some t) = true) (hc : truthy (some c) = true)
    (h : ObjectId.new postId = .error .bsonError) :
    putContent ⟨some db⟩ postId (some t) (some c) = (dbError, ⟨some db⟩) := by
  simp [putContent, putContentTry, Server.db, h, bind, Except.bind, ht, hc]

theorem getContent_of_absent (db : Db) (postId : String) (oid : ObjectId)
    (h : ObjectId.new postId = .ok oid) (habs : ∀ p ∈ db.post, p._id ≠ oid) :
    getContent ⟨some db⟩ postId = postNotFound := by
  have hf : findOne (fun p : Post => p._id == oid) db.post = none :=
    (findOne_eq_none_iff _ _).mpr (fun p hp => by simpa using habs p hp)
  simp [getContent, getContentTry, Server.db, h, bind, Except.bind, hf, pure, Except.pure]

theorem deleteContent_of_absent (db : Db) (postId : String) (oid : ObjectId)
    (h : ObjectId.new postId = .ok oid) (habs : ∀ p ∈ db.post, p._id ≠ oid) :
    deleteContent ⟨some db⟩ postId = (postNotFound, ⟨some db⟩) := by
  have hf : deleteOne (fun p : Post => p._id == oid) db.post = (db.post, 0) :=
    deleteOne_of_no_match _ _ (fun p hp => by simpa using habs p hp)
  simp [deleteContent, deleteContentTry, Server.db, h, bind, Except.bind, hf, pure, Except.pure]

theorem putContent_of_absent (db : Db) (postId : String) (t c : JVal) (oid : ObjectId)
    (ht : truthy (some t) = true) (hc : truthy (some c) = true)
    (h : ObjectId.new postId = .ok oid) (habs : ∀ p ∈ db.post, p._id ≠ oid) :
    putContent ⟨some db⟩ postId (some t) (some c) = (postNotFound, ⟨some db⟩) := by
  have hf : ∀ u, updateOne (fun p : Post => p._id == oid) u db.post = (db.post, 0) :=
    fun u => updateOne_of_no_match _ u _ (fun p hp => by simpa using habs p hp)
  simp [putContent, putContentTry, Server.db, h, bind, Except.bind, hf, pure,
    Except.pure, ht, hc]

/-- C1, as the code behaves: with the database connected and whatever the post
store holds, the ids `"abc"` and `"12345"` (no post can have them) make
`GET /content/{id}`, `DELETE /content/{id}` and `PUT /content/{id}` with a
non-empty title and content respond 500 with the `Database query error` body,
not 404: `new ObjectId(postId)` throws inside the `try` block. -/
theorem malformed_id_responds_500 (db : Db) :
    getContent ⟨some db⟩ "abc" = ⟨500, errorBody "Database query error"⟩
    ∧ (deleteContent ⟨some db⟩ "abc").1 = ⟨500, errorBody "Database query error"⟩
    ∧ (putContent ⟨some db⟩ "abc" (some (.text "t")) (some (.text "c"))).1
        = ⟨500, errorBody "Database query error"⟩
    ∧ getContent ⟨some db⟩ "12345" = ⟨500, errorBody "Database query error"⟩
    ∧ (deleteContent ⟨some db⟩ "12345").1 = ⟨500, errorBody "Database query error"⟩
    ∧ (putContent ⟨some db⟩ "12345" (some (.text "t")) (some (.text "c"))).1
        = ⟨500, errorBody "Database query error"⟩ := by
  have ht : truthy (some (.text "t")) = true := by decide
  have hc : truthy (some (.text "c")) = true := by decide
  refine ⟨?_, ?_, ?_, ?_, ?_, ?_⟩
  · exact getContent_of_throw db "abc" new_abc
  · rw [deleteContent_of_throw db "abc" new_abc]; rfl
  · rw [putContent_of_throw db "abc" (.text "t") (.text "c") ht hc new_abc]; rfl
  · exact getContent_of_throw db "12345" new_12345
  · rw [deleteContent_of_throw db "12345" new_12345]; rfl
  · rw [putContent_of_throw db "12345" (.text "t") (.text "c") ht hc new_12345]; rfl

theorem postContent_of_fresh (db : Db) (gen : ObjectId) (t c : JVal)
    (ht : truthy (some t) = true) (hc : truthy (some c) = true)
    (hfresh : ∀ p ∈ db.post, p._id ≠ gen) :
    postContent ⟨some db⟩ gen (some t) (some c)
      = (⟨201, .object (Post.toJSON ⟨gen, t, c⟩)⟩,
         ⟨some { db with post := db.post ++ [⟨gen, t, c⟩] }⟩) := by
  have hins : insertOne Post._id ⟨gen, t, c⟩ db.post = .ok (db.post ++ [⟨gen, t, c⟩]) :=
    insertOne_of_fresh _ _ _ hfresh
  have hfind : findOne (fun p : Post => p._id == gen) (db.post ++ [⟨gen, t, c⟩])
      = some ⟨gen, t, c⟩ :=
    findOne_after_insert _ _ _ (fun p hp => by simpa using hfresh p hp) (by simp)
  simp [postContent, postContentTry, Server.db, bind, Except.bind, pure, Except.pure,
    ht, hc, hins, hfind]

theorem getContent_of_present (db : Db) (postId : String) (p : Post) (hu : uniqueIds db.post)
    (h : ObjectId.new postId = .ok p._id) (hp : p ∈ db.post) :
    getContent ⟨some db⟩ postId = ⟨200, .object p.toJSON⟩ := by
  have hf : findOne (fun q : Post => q._id == p._id) db.post = some p := by
    unfold findOne
    have hu2 : uniqueIds db.post := hu
    revert hp hu2
    generalize db.post = l
    intro hp hu2
    induction l with
    | nil => simp at hp
    | cons d ds ih =>
      unfold uniqueIds at hu2
      rw [List.map_cons, List.nodup_cons] at hu2
      rcases List.mem_cons.mp hp with hpd | hpd
      · subst hpd; simp
      · have hne : d._id ≠ p._id := fun he =>
          hu2.1 (he ▸ List.mem_map_of_mem Post._id hpd)
        simp [hne, ih hpd hu2.2]
  simp [getContent, getContentTry, Server.db, h, bind, Except.bind, hf, pure, Except.pure]

/-- C2: with the database connected, a non-empty title and content and an
insert that raises no duplicate-key fault, `POST /content` responds 201 with
the post made of the generated id and that title and content; no post of the
store had that id before; the post is appended to the store; and
`GET /content/{id}` with the id as the body shows it responds 200 with the
body the create returned. -/
theorem create_then_get (db : Db) (gen : ObjectId) (t c : String)
    (ht : t ≠ "") (hc : c ≠ "")
    (hok : insertOne Post._id ⟨gen, .text t, .text c⟩ db.post ≠ .error .duplicateKey) :
    (postContent ⟨some db⟩ gen (some (.text t)) (some (.text c))).1
        = ⟨201, .object [("_id", .text gen.toHexString), ("title", .text t),
            ("content", .text c)]⟩
    ∧ (∀ p ∈ db.post, p._id ≠ gen)
    ∧ (postContent ⟨some db⟩ gen (some (.text t)) (some (.text c))).2
        = ⟨some { db with post := db.post ++ [⟨gen, .text t, .text c⟩] }⟩
    ∧ getContent (postContent ⟨some db⟩ gen (some (.text t)) (some (.text c))).2
          gen.toHexString
        = ⟨200, (postContent ⟨some db⟩ gen (some (.text t)) (some (.text c))).1.body⟩ := by
  have hfresh : ∀ p ∈ db.post, p._id ≠ gen := (insertOne_ok_iff _ _ _).mp hok
  have hpost := postContent_of_fresh db gen (.text t) (.text c) (truthy_text t ht)
    (truthy_text c hc) hfresh
  refine ⟨by rw [hpost]; rfl, hfresh, by rw [hpost], ?_⟩
  rw [hpost]
  simp only [getContent, getContentTry, Server.db, ObjectId.new_toHexString, bind, Except.bind]
  have hfind : findOne (fun p : Post => p._id == gen) (db.post ++ [⟨gen, .text t, .text c⟩])
      = some ⟨gen, .text t, .text c⟩ :=
    findOne_after_insert _ _ _ (fun p hp => by simpa using hfresh p hp) (by simp)
  simp [hfind, pure, Except.pure]

/-- Witness of C2 on the empty store. -/
theorem create_then_get_witness :
    ("t" : String) ≠ "" ∧ ("c" : String) ≠ ""
    ∧ insertOne Post._id ⟨ObjectId.rep 1, .text "t", .text "c"⟩ ([] : List Post)
        ≠ .error .duplicateKey
    ∧ (postContent ⟨some ⟨[], []⟩⟩ (ObjectId.rep 1) (some (.text "t")) (some (.text "c"))).1
        = ⟨201, .object [("_id", .text "111111111111111111111111"), ("title", .text "t"),
            ("content", .text "c")]⟩
    ∧ getContent (postContent ⟨some ⟨[], []⟩⟩ (ObjectId.rep 1) (some (.text "t")) (some (.text "c"))).2
        "111111111111111111111111"
        = ⟨200, (postContent ⟨some ⟨[], []⟩⟩ (ObjectId.rep 1) (some (.text "t")) (some (.text "c"))).1.body⟩ :=
  have h := create_then_get ⟨[], []⟩ (ObjectId.rep 1) "t" "c" (by decide) (by decide) (by decide)
  ⟨by decide, by decide, by decide, h.1, h.2.2.2⟩

/-- C7: with the database connected, a store with unique ids, an id string
that denotes the id of a stored post and a non-empty title and content,
`PUT /content/{id}` responds 200 with the post of that id, the new title and
the new content; the resulting store is the old one with that post replaced
in place by the updated post and every other post as it was (so nothing is
added or removed), and the user collection is untouched. -/
theorem put_updates_exactly_one (db : Db) (postId : String) (p : Post) (t c : String)
    (hu : uniqueIds db.post) (hid : ObjectId.new postId = .ok p._id) (hp : p ∈ db.post)
    (ht : t ≠ "") (hc : c ≠ "") :
    (putContent ⟨some db⟩ postId (some (.text t)) (some (.text c))).1
        = ⟨200, .object [("_id", .text p._id.toHexString), ("title", .text t),
            ("content", .text c)]⟩
    ∧ (putContent ⟨some db⟩ postId (some (.text t)) (some (.text c))).2
        = ⟨some ⟨db.post.map (fun q => if q = p then ⟨p._id, .text t, .text c⟩ else q),
            db.user⟩⟩ := by
  have hm : p._id ∈ db.post.map Post._id := List.mem_map_of_mem Post._id hp
  have hupd := updateOne_of_unique db.post p._id
    (fun q => { q with title := .text t, content := .text c }) hu hm
  have hmap : db.post.map (fun q => if q._id = p._id then { q with title := .text t, content := .text c }
      else q) = db.post.map (fun q => if q._id = p._id then (⟨p._id, .text t, .text c⟩ : Post) else q) := by
    apply List.map_congr_left
    intro q _
    by_cases hq : q._id = p._id
    · simp [hq]
    · simp [hq]
  have hmap2 : db.post.map (fun q => if q._id = p._id then (⟨p._id, .text t, .text c⟩ : Post) else q)
      = db.post.map (fun q => if q = p then (⟨p._id, .text t, .text c⟩ : Post) else q) := by
    apply List.map_congr_left
    intro q hq
    by_cases hqp : q = p
    · simp [hqp]
    · have hne : q._id ≠ p._id := by
        intro he
        exact hqp ((List.inj_on_of_nodup_map hu) hq hp he)
      simp [hqp, hne]
  have hfind := findOne_after_update db.post p._id ⟨p._id, .text t, .text c⟩ rfl hm
  rw [hmap] at hupd
  have hput : putContent ⟨some db⟩ postId (some (.text t)) (some (.text c))
      = (⟨200, .object (Post.toJSON ⟨p._id, .text t, .text c⟩)⟩,
         ⟨some ⟨db.post.map (fun q => if q._id = p._id then (⟨p._id, .text t, .text c⟩ : Post) else q),
           db.user⟩⟩) := by
    simp [putContent, putContentTry, truthy, Server.db, hid, bind, Except.bind, pure,
      Except.pure, ht, hc, hupd, hfind]
  rw [hput, hmap2]
  exact ⟨rfl, rfl⟩

/-- Witness of C7: a store of two posts, the second one updated. -/
theorem put_updates_exactly_one_witness :
    uniqueIds [⟨ObjectId.rep 1, .text "a", .text "b"⟩, ⟨ObjectId.rep 2, .text "x", .text "y"⟩]
    ∧ ObjectId.new "222222222222222222222222" = .ok (ObjectId.rep 2)
    ∧ (putContent ⟨some ⟨[⟨ObjectId.rep 1, .text "a", .text "b"⟩, ⟨ObjectId.rep 2, .text "x", .text "y"⟩], []⟩⟩
        "222222222222222222222222" (some (.text "t")) (some (.text "c"))).2
        = ⟨some ⟨[⟨ObjectId.rep 1, .text "a", .text "b"⟩, ⟨ObjectId.rep 2, .text "t", .text "c"⟩], []⟩⟩ :=
  have hu : uniqueIds [⟨ObjectId.rep 1, .text "a", .text "b"⟩, ⟨ObjectId.rep 2, .text "x", .text "y"⟩] := by
    unfold uniqueIds; decide
  ⟨hu, by decide,
    (put_updates_exactly_one ⟨[⟨ObjectId.rep 1, .text "a", .text "b"⟩, ⟨ObjectId.rep 2, .text "x", .text "y"⟩], []⟩
      "222222222222222222222222" ⟨ObjectId.rep 2, .text "x", .text "y"⟩ "t" "c" hu (by decide)
      (by decide) (by decide) (by decide)).2.trans (by decide)⟩

/-- C8: with the database connected, a store with unique ids and an id string
that denotes the id of a stored post, `DELETE /content/{id}` responds 204 with
an empty body; the resulting store is the old one without that post, every
other post as it was and in the same order; after it `GET /content/{id}`
responds 404 and a second `DELETE /content/{id}` responds 404 and leaves the
store as it is. -/
theorem delete_then_absent (db : Db) (postId : String) (p : Post)
    (hu : uniqueIds db.post) (hid : ObjectId.new postId = .ok p._id) (hp : p ∈ db.post) :
    deleteContent ⟨some db⟩ postId
        = (⟨204, .empty⟩, ⟨some ⟨db.post.filter (fun q => q != p), db.user⟩⟩)
    ∧ getContent (deleteContent ⟨some db⟩ postId).2 postId
        = ⟨404, errorBody "Post not found"⟩
    ∧ deleteContent (deleteContent ⟨some db⟩ postId).2 postId
        = (⟨404, errorBody "Post not found"⟩, (deleteContent ⟨some db⟩ postId).2) := by
  have hm : p._id ∈ db.post.map Post._id := List.mem_map_of_mem Post._id hp
  have hdel := deleteOne_of_unique db.post p._id hu hm
  have hfil : db.post.filter (fun q => q._id != p._id) = db.post.filter (fun q => q != p) := by
    apply List.filter_congr
    intro q hq
    by_cases hqp : q = p
    · simp [hqp]
    · have hne : q._id ≠ p._id := by
        intro he
        exact hqp ((List.inj_on_of_nodup_map hu) hq hp he)
      have a : (q._id != p._id) = true := bne_iff_ne.mpr hne
      have b : (q != p) = true := bne_iff_ne.mpr hqp
      rw [a, b]
  have h1 : deleteContent ⟨some db⟩ postId
      = (⟨204, .empty⟩, ⟨some ⟨db.post.filter (fun q => q != p), db.user⟩⟩) := by
    rw [← hfil]
    simp [deleteContent, deleteContentTry, Server.db, hid, bind, Except.bind, pure,
      Except.pure, hdel]
  have habs : ∀ q ∈ (⟨db.post.filter (fun q => q != p), db.user⟩ : Db).post, q._id ≠ p._id := by
    intro q hq
    rw [← hfil] at hq
    have := (List.mem_filter.mp hq).2
    simpa using this
  refine ⟨h1, ?_, ?_⟩
  · rw [h1]
    exact getContent_of_absent _ postId p._id hid habs
  · rw [h1]
    exact deleteContent_of_absent _ postId p._id hid habs

/-- Witness of C8: a store of two posts, the first one deleted. -/
theorem delete_then_absent_witness :
    uniqueIds [⟨ObjectId.rep 1, .text "a", .text "b"⟩, ⟨ObjectId.rep 2, .text "x", .text "y"⟩]
    ∧ ObjectId.new "111111111111111111111111" = .ok (ObjectId.rep 1)
    ∧ deleteContent ⟨some ⟨[⟨ObjectId.rep 1, .text "a", .text "b"⟩, ⟨ObjectId.rep 2, .text "x", .text "y"⟩], []⟩⟩
        "111111111111111111111111"
        = (⟨204, .empty⟩, ⟨some ⟨[⟨ObjectId.rep 2, .text "x", .text "y"⟩], []⟩⟩) :=
  have hu : uniqueIds [⟨ObjectId.rep 1, .text "a", .text "b"⟩, ⟨ObjectId.rep 2, .text "x", .text "y"⟩] := by
    unfold uniqueIds; decide
  ⟨hu, by decide,
    (delete_then_absent ⟨[⟨ObjectId.rep 1, .text "a", .text "b"⟩, ⟨ObjectId.rep 2, .text "x", .text "y"⟩], []⟩
      "111111111111111111111111" ⟨ObjectId.rep 1, .text "a", .text "b"⟩ hu (by decide)
      (by decide)).1.trans (by decide)⟩

theorem truthy_eq_false_iff (v : Option JVal) : truthy v = false ↔ absentOrFalsy v := by
  unfold absentOrFalsy
  cases v with
  | none => simp [truthy]
  | some j => cases j <;> simp [truthy]

theorem postContent_of_falsy (sv : Server) (gen : ObjectId) (title content : Option JVal)
    (h : truthy title = false ∨ truthy content = false) :
    postContent sv gen title content
      = (⟨400, errorBody "Title and content are required"⟩, sv) := by
  rcases h with h | h <;>
    simp [postContent, postContentTry, h, pure, Except.pure]

theorem putContent_of_falsy (sv : Server) (postId : String) (title content : Option JVal)
    (h : truthy title = false ∨ truthy content = false) :
    putContent sv postId title content
      = (⟨400, errorBody "Title and content are required"⟩, sv) := by
  rcases h with h | h <;>
    simp [putContent, putContentTry, h, pure, Except.pure]

/-- C10, the claim as stated fails: in the body `{title: 0, content: "c"}` both
fields are present and neither is the empty text, the database is connected
and the insert raises no fault, yet `POST /content` responds 400 and stores
nothing instead of responding 201. -/
theorem zero_title_is_rejected :
    (some (JVal.number 0) ≠ none ∧ some (JVal.number 0) ≠ some (JVal.text ""))
    ∧ (some (JVal.text "c") ≠ none ∧ some (JVal.text "c") ≠ some (JVal.text ""))
    ∧ insertOne Post._id ⟨ObjectId.rep 1, .number 0, .text "c"⟩ ([] : List Post)
        ≠ .error .duplicateKey
    ∧ postContent ⟨some ⟨[], []⟩⟩ (ObjectId.rep 1) (some (.number 0)) (some (.text "c"))
        = (⟨400, errorBody "Title and content are required"⟩, ⟨some ⟨[], []⟩⟩)
    ∧ (postContent ⟨some ⟨[], []⟩⟩ (ObjectId.rep 1) (some (.number 0))
        (some (.text "c"))).1.status ≠ 201 := by
  decide

/-- C10, amended: when title or content is absent, `null`, `false`, `0` or the
empty text, `POST /content` and `PUT /content/{id}` (any id, any server state)
respond 400 with a body that is an object with the single field `error`, and
the server state is unchanged; in every other case, with the database
connected and an insert that raises no duplicate-key fault, `POST /content`
appends the post to the store and responds 201 with it. -/
theorem validation_then_create (sv : Server) (gen : ObjectId) (postId : String)
    (title content : Option JVal) :
    ((absentOrFalsy title ∨ absentOrFalsy content) →
        postContent sv gen title content
          = (⟨400, .object [("error", .text "Title and content are required")]⟩, sv)
        ∧ putContent sv postId title content
          = (⟨400, .object [("error", .text "Title and content are required")]⟩, sv))
    ∧ (¬ (absentOrFalsy title ∨ absentOrFalsy content) →
        ∀ db : Db, sv.mydb = some db →
          insertOne Post._id ⟨gen, title.getD .null, content.getD .null⟩ db.post
            ≠ .error .duplicateKey →
          postContent sv gen title content
            = (⟨201, .object [("_id", .text gen.toHexString), ("title", title.getD .null),
                  ("content", content.getD .null)]⟩,
               ⟨some { db with
                  post := db.post ++ [⟨gen, title.getD .null, content.getD .null⟩] }⟩)) := by
  constructor
  · intro h
    have hf : truthy title = false ∨ truthy content = false := by
      rcases h with h | h
      · exact Or.inl ((truthy_eq_false_iff _).mpr h)
      · exact Or.inr ((truthy_eq_false_iff _).mpr h)
    exact ⟨postContent_of_falsy sv gen title content hf,
      putContent_of_falsy sv postId title content hf⟩
  · intro h db hdb hok
    have ht : truthy title = true := by
      cases h1 : truthy title with
      | false => exact absurd (Or.inl ((truthy_eq_false_iff _).mp h1)) h
      | true => rfl
    have hc : truthy content = true := by
      cases h1 : truthy content with
      | false => exact absurd (Or.inr ((truthy_eq_false_iff _).mp h1)) h
      | true => rfl
    have hsv : sv = ⟨some db⟩ := by cases sv; simp_all
    rw [hsv]
    cases title with
    | none => simp [truthy] at ht
    | some t =>
      cases content with
      | none => simp [truthy] at hc
      | some c =>
        exact postContent_of_fresh db gen t c ht hc ((insertOne_ok_iff _ _ _).mp hok)

/-- Witness of C10: a `null` title is turned down by both routes, and the body
`{title: 123, content: "c"}` is stored and answered 201. -/
theorem validation_then_create_witness :
    (postContent ⟨some ⟨[], []⟩⟩ (ObjectId.rep 1) (some .null) (some (.text "c"))
        = (⟨400, .object [("error", .text "Title and content are required")]⟩,
           ⟨some ⟨[], []⟩⟩)
      ∧ putContent ⟨some ⟨[], []⟩⟩ "abc" (some .null) (some (.text "c"))
        = (⟨400, .object [("error", .text "Title and content are required")]⟩,
           ⟨some ⟨[], []⟩⟩))
    ∧ postContent ⟨some ⟨[], []⟩⟩ (ObjectId.rep 1) (some (.number 123)) (some (.text "c"))
        = (⟨201, .object [("_id", .text "111111111111111111111111"),
              ("title", .number 123), ("content", .text "c")]⟩,
           ⟨some ⟨[⟨ObjectId.rep 1, .number 123, .text "c"⟩], []⟩⟩) :=
  ⟨(validation_then_create ⟨some ⟨[], []⟩⟩ (ObjectId.rep 1) "abc" (some .null)
      (some (.text "c"))).1 (Or.inl (Or.inr (Or.inl rfl))),
   ((validation_then_create ⟨some ⟨[], []⟩⟩ (ObjectId.rep 1) "abc" (some (.number 123))
      (some (.text "c"))).2 (by unfold absentOrFalsy; decide) ⟨[], []⟩ rfl
      (by decide)).trans (by decide)⟩

/-! ## The login gate -/

/-- C3: on every exchange `checkLogin` does exactly one of two things. With no
user bound to the session it writes the response 401 with the body
`{ error }` and does not call `next` (the count of calls is unchanged); with a
user bound it calls `next` once and leaves the response and the session as
they were. In the first case the session is unchanged too, and on the route
`/welcome` the gate's 401 is the final response. -/
theorem checkLogin_gate (x : Exchange) :
    (x.session.user = none
      ∧ checkLogin x = ⟨x.session, some ⟨401, .object [("error", .text "로그인이 필요합니다.")]⟩,
          x.nextCalls⟩
      ∧ welcome x.session
          = ⟨x.session, some ⟨401, .object [("error", .text "로그인이 필요합니다.")]⟩, 0⟩)
    ∨ (∃ u, x.session.user = some u
      ∧ checkLogin x = ⟨x.session, x.res, x.nextCalls + 1⟩
      ∧ (checkLogin x).nextCalls = x.nextCalls + 1
      ∧ (checkLogin x).res = x.res
      ∧ (checkLogin x).session = x.session) := by
  cases h : x.session.user with
  | none =>
    left
    refine ⟨rfl, ?_, ?_⟩
    · simp [checkLogin, h, errorBody]
    · simp [welcome, checkLogin, h, errorBody]
  | some u =>
    right
    refine ⟨u, rfl, ?_⟩
    simp [checkLogin, h]

/-! ## The user listing -/

theorem getUsers_eq (db : Db) :
    getUsers ⟨some db⟩ = ⟨200, .array (db.user.map fun u =>
      [("_id", .text u._id.toHexString), ("username", .text u.username)])⟩ := by
  simp [getUsers, Server.db, projectOut, User.toJSON, List.filter]

theorem publicUser_keys (u : User) :
    JObject.keys [("_id", .text u._id.toHexString), ("username", .text u.username)]
      = ["_id", "username"] := rfl

/-- C9: with the database connected, `GET /users` responds 200 with an array
that has, in store order, one entry per stored user, made of the user's `_id`
and `username`; no field named `password` or `passwordHash` occurs anywhere in
the body; and two stores whose users agree on `_id` and `username` (differing
at most in the stored hashes) get the same response. -/
theorem users_listing_hides_hash (db : Db) :
    getUsers ⟨some db⟩ = ⟨200, .array (db.user.map fun u =>
        [("_id", .text u._id.toHexString), ("username", .text u.username)])⟩
    ∧ "password" ∉ (getUsers ⟨some db⟩).body.keys
    ∧ "passwordHash" ∉ (getUsers ⟨some db⟩).body.keys
    ∧ ∀ db2 : Db, db2.user.map (fun u => (u._id, u.username))
          = db.user.map (fun u => (u._id, u.username)) →
        getUsers ⟨some db2⟩ = getUsers ⟨some db⟩ := by
  refine ⟨getUsers_eq db, ?_, ?_, ?_⟩
  · rw [getUsers_eq]
    simp only [Body.keys, List.mem_flatMap, List.mem_map]
    rintro ⟨o, ⟨u, _, rfl⟩, hmem⟩
    rw [publicUser_keys] at hmem
    revert hmem
    decide
  · rw [getUsers_eq]
    simp only [Body.keys, List.mem_flatMap, List.mem_map]
    rintro ⟨o, ⟨u, _, rfl⟩, hmem⟩
    rw [publicUser_keys] at hmem
    revert hmem
    decide
  · intro db2 h
    rw [getUsers_eq, getUsers_eq]
    have h2 := congrArg (List.map fun (q : ObjectId × String) =>
      ([("_id", JVal.text q.1.toHexString), ("username", JVal.text q.2)] : JObject)) h
    simp only [List.map_map] at h2
    simpa [Function.comp] using h2

/-! ## Accounts -/

theorem findOne_username_none (l : List User) (name : String)
    (h : ∀ u ∈ l, u.username ≠ name) : findOne (fun u : User => u.username == name) l = none :=
  (findOne_eq_none_iff _ _).mpr (fun u hu => by simpa using h u hu)

theorem findOne_username_some (l : List User) (name : String)
    (h : ∃ u ∈ l, u.username = name) :
    ∃ v, findOne (fun u : User => u.username == name) l = some v ∧ v ∈ l ∧ v.username = name := by
  cases hf : findOne (fun u : User => u.username == name) l with
  | none =>
    obtain ⟨u, hu, hn⟩ := h
    have := (findOne_eq_none_iff _ _).mp hf u hu
    simp [hn] at this
  | some v =>
    refine ⟨v, rfl, ?_, ?_⟩
    · exact List.mem_of_find?_eq_some hf
    · have := List.find?_some hf
      simpa using this

theorem signup_of_new (bc : Bcrypt) (db : Db) (session : Session) (gen : ObjectId)
    (salt name pw : String) (hn : name ≠ "") (hp : pw ≠ "")
    (hnew : ∀ u ∈ db.user, u.username ≠ name) (hfresh : ∀ u ∈ db.user, u._id ≠ gen) :
    signup bc ⟨some db⟩ session gen salt (some name) (some pw)
      = (⟨201, messageBody "회원가입이 완료되었습니다."⟩,
         ⟨some { db with user := db.user ++ [⟨gen, name, bc.hash pw salt⟩] }⟩, session) := by
  have hf := findOne_username_none db.user name hnew
  have hins : insertOne User._id ⟨gen, name, bc.hash pw salt⟩ db.user
      = .ok (db.user ++ [⟨gen, name, bc.hash pw salt⟩]) := insertOne_of_fresh _ _ _ hfresh
  simp [signup, signupTry, truthy, Server.db, bind, Except.bind, pure, Except.pure, hn, hp,
    hf, hins]

theorem signup_of_taken (bc : Bcrypt) (db : Db) (session : Session) (gen : ObjectId)
    (salt name pw : String) (hn : name ≠ "") (hp : pw ≠ "")
    (htaken : ∃ u ∈ db.user, u.username = name) :
    signup bc ⟨some db⟩ session gen salt (some name) (some pw)
      = (⟨400, errorBody "이미 존재하는 사용자명입니다."⟩, ⟨some db⟩, session) := by
  obtain ⟨v, hv, _, _⟩ := findOne_username_some db.user name htaken
  simp [signup, signupTry, truthy, Server.db, bind, Except.bind, pure, Except.pure, hn, hp, hv]

/-- Every way a signup can leave the server: as it was, or with one user of a
new, non-empty username appended. -/
theorem signup_server_cases (bc : Bcrypt) (sv : Server) (session : Session) (gen : ObjectId)
    (salt : String) (username password : Option String) :
    (signup bc sv session gen salt username password).2.1 = sv
    ∨ ∃ db name hash, sv.mydb = some db ∧ name ≠ "" ∧ (∀ u ∈ db.user, u.username ≠ name)
        ∧ (signup bc sv session gen salt username password).2.1
            = ⟨some { db with user := db.user ++ [⟨gen, name, hash⟩] }⟩ := by
  by_cases hu : truthy (username.map .text) = true
  swap
  · left
    simp [signup, signupTry, hu, pure, Except.pure]
  by_cases hp : truthy (password.map .text) = true
  swap
  · left
    simp [signup, signupTry, hp, pure, Except.pure]
  cases sv with
  | mk mydb =>
  cases mydb with
  | none =>
    left
    simp [signup, signupTry, hu, hp, Server.db, bind, Except.bind]
  | some db =>
    cases username with
    | none => simp [truthy] at hu
    | some name =>
      cases password with
      | none => simp [truthy] at hp
      | some pw =>
        have hn : name ≠ "" := by simpa [truthy] using hu
        have hpw : pw ≠ "" := by simpa [truthy] using hp
        by_cases htaken : ∃ u ∈ db.user, u.username = name
        · left
          rw [signup_of_taken bc db session gen salt name pw hn hpw htaken]
        · have hnew : ∀ u ∈ db.user, u.username ≠ name := by
            intro u hu' he
            exact htaken ⟨u, hu', he⟩
          by_cases hfresh : ∀ u ∈ db.user, u._id ≠ gen
          · right
            refine ⟨db, name, bc.hash pw salt, rfl, hn, hnew, ?_⟩
            rw [signup_of_new bc db session gen salt name pw hn hpw hnew hfresh]
          · left
            have hins : insertOne User._id ⟨gen, name, bc.hash pw salt⟩ db.user
                = .error .duplicateKey := by
              by_contra hne
              exact hfresh ((insertOne_ok_iff _ _ _).mp hne)
            have hf := findOne_username_none db.user name hnew
            simp [signup, signupTry, truthy, Server.db, bind, Except.bind, hn, hpw, hf, hins]

theorem signup_preserves_usersOk (bc : Bcrypt) (sv : Server) (session : Session)
    (gen : ObjectId) (salt : String) (username password : Option String) (h : usersOk sv) :
    usersOk (signup bc sv session gen salt username password).2.1 := by
  rcases signup_server_cases bc sv session gen salt username password with hs | hs
  · rw [hs]; exact h
  · obtain ⟨db, name, hash, hdb, hn, hnew, hs⟩ := hs
    obtain ⟨db0, hdb0, huniq, hne⟩ := h
    have hdd : db0 = db := by rw [hdb] at hdb0; exact (Option.some.inj hdb0).symm
    subst hdd
    rw [hs]
    refine ⟨_, rfl, ?_, ?_⟩
    · unfold uniqueUsernames at *
      simp only [List.map_append, List.map_cons, List.map_nil]
      rw [List.nodup_append]
      refine ⟨huniq, List.nodup_singleton _, ?_⟩
      intro a ha hb
      rw [List.mem_singleton] at hb
      obtain ⟨u, hu, hua⟩ := List.mem_map.mp ha
      exact hnew u hu (hua.trans hb)
    · intro u hu
      rcases List.mem_append.mp hu with hu | hu
      · exact hne u hu
      · rw [List.mem_singleton] at hu
        rw [hu]; exact hn

theorem runSignups_preserves_usersOk (bc : Bcrypt) (reqs : List SignupRequest) :
    ∀ sv : Server, usersOk sv → usersOk (runSignups bc sv reqs) := by
  induction reqs with
  | nil => intro sv h; exact h
  | cons r rs ih =>
    intro sv h
    simp only [runSignups, List.foldl_cons]
    exact ih _ (signup_preserves_usersOk bc sv r.session r.gen r.salt r.username r.password h)

/-- C4, the claim as stated fails: after the signup of `a`, a signup request
that names `a` again but carries no password is answered 400 with the
missing-field message, not with the duplicate-username message. -/
theorem taken_username_without_password :
    runSignups toyBcrypt ⟨some ⟨[], []⟩⟩ [⟨⟨none⟩, ObjectId.rep 1, "s", some "a", some "p"⟩]
        = ⟨some ⟨[], [⟨ObjectId.rep 1, "a", "s$p"⟩]⟩⟩
    ∧ (signup toyBcrypt ⟨some ⟨[], [⟨ObjectId.rep 1, "a", "s$p"⟩]⟩⟩ ⟨none⟩ (ObjectId.rep 2) "s"
        (some "a") none).1 = ⟨400, errorBody "Username and password are required"⟩
    ∧ (signup toyBcrypt ⟨some ⟨[], [⟨ObjectId.rep 1, "a", "s$p"⟩]⟩⟩ ⟨none⟩ (ObjectId.rep 2) "s"
        (some "a") none).1 ≠ ⟨400, errorBody "이미 존재하는 사용자명입니다."⟩ := by
  decide

/-- C4, amended: from a connected server with an empty user collection, any
sequence of signups handled one after another leaves a user collection in
which no two records share a username; and in such a store a signup with a
non-empty password whose username is already stored responds 400 with the
duplicate-username message and leaves server and session unchanged. -/
theorem sequential_signups_unique (bc : Bcrypt) (posts : List Post)
    (reqs : List SignupRequest) :
    ∃ db, runSignups bc ⟨some ⟨posts, []⟩⟩ reqs = ⟨some db⟩
      ∧ uniqueUsernames db.user
      ∧ ∀ (session : Session) (gen : ObjectId) (salt name pw : String), pw ≠ "" →
          (∃ u ∈ db.user, u.username = name) →
          signup bc ⟨some db⟩ session gen salt (some name) (some pw)
            = (⟨400, errorBody "이미 존재하는 사용자명입니다."⟩, ⟨some db⟩, session) := by
  have h0 : usersOk ⟨some ⟨posts, []⟩⟩ :=
    ⟨_, rfl, by simp [uniqueUsernames], by simp⟩
  obtain ⟨db, hdb, huniq, hne⟩ := runSignups_preserves_usersOk bc reqs _ h0
  refine ⟨db, ?_, huniq, ?_⟩
  · revert hdb
    generalize runSignups bc ⟨some ⟨posts, []⟩⟩ reqs = sv
    intro hdb
    cases sv
    simp_all
  · intro session gen salt name pw hpw htaken
    have hn : name ≠ "" := by
      obtain ⟨u, hu, hun⟩ := htaken
      rw [← hun]; exact hne u hu
    exact signup_of_taken bc db session gen salt name pw hn hpw htaken

/-- C5: with a `bcrypt` whose `compare` accepts every hash of the same
plaintext, the database connected, a non-empty username that no stored user
has, a non-empty password and an insert that raises no duplicate-key fault,
`POST /signup` responds 201, appends the user with the hashed password and
leaves the session as it was; a following `POST /login` with the same
username and password responds 200 with the body
`{ message, user: { username } }`, binds the stored user to the session, and
no field named `password` or `passwordHash` occurs in that body. -/
theorem signup_then_login (bc : Bcrypt) (db : Db) (session : Session) (gen : ObjectId)
    (salt name pw : String)
    (hverify : ∀ p s, bc.compare p (bc.hash p s) = true)
    (hn : name ≠ "") (hp : pw ≠ "")
    (hnew : ∀ u ∈ db.user, u.username ≠ name)
    (hok : insertOne User._id ⟨gen, name, bc.hash pw salt⟩ db.user ≠ .error .duplicateKey) :
    signup bc ⟨some db⟩ session gen salt (some name) (some pw)
        = (⟨201, .object [("message", .text "회원가입이 완료되었습니다.")]⟩,
           ⟨some { db with user := db.user ++ [⟨gen, name, bc.hash pw salt⟩] }⟩, session)
    ∧ login bc (signup bc ⟨some db⟩ session gen salt (some name) (some pw)).2.1
          (signup bc ⟨some db⟩ session gen salt (some name) (some pw)).2.2
          (some name) (some pw)
        = (⟨200, .object [("message", .text "로그인 성공"),
              ("user", .object [("username", .text name)])]⟩,
           ⟨some ⟨gen, name, bc.hash pw salt⟩⟩)
    ∧ "password" ∉ (login bc (signup bc ⟨some db⟩ session gen salt (some name) (some pw)).2.1
          (signup bc ⟨some db⟩ session gen salt (some name) (some pw)).2.2
          (some name) (some pw)).1.body.keys
    ∧ "passwordHash" ∉ (login bc
          (signup bc ⟨some db⟩ session gen salt (some name) (some pw)).2.1
          (signup bc ⟨some db⟩ session gen salt (some name) (some pw)).2.2
          (some name) (some pw)).1.body.keys := by
  have hfresh : ∀ u ∈ db.user, u._id ≠ gen := (insertOne_ok_iff _ _ _).mp hok
  have hs := signup_of_new bc db session gen salt name pw hn hp hnew hfresh
  have hfind : findOne (fun u : User => u.username == name)
      (db.user ++ [⟨gen, name, bc.hash pw salt⟩]) = some ⟨gen, name, bc.hash pw salt⟩ :=
    findOne_after_insert _ _ _ (fun u hu => by simpa using hnew u hu) (by simp)
  have hl : login bc ⟨some { db with user := db.user ++ [⟨gen, name, bc.hash pw salt⟩] }⟩
      session (some name) (some pw)
      = (⟨200, .object [("message", .text "로그인 성공"),
            ("user", .object [("username", .text name)])]⟩,
         ⟨some ⟨gen, name, bc.hash pw salt⟩⟩) := by
    simp [login, loginTry, truthy, Server.db, bind, Except.bind, pure, Except.pure, hn, hp,
      hfind, hverify]
  have hk : Body.keys (.object [("message", .text "로그인 성공"),
      ("user", .object [("username", .text name)])]) = ["message", "user", "username"] := rfl
  rw [hs]
  refine ⟨rfl, hl, ?_, ?_⟩
  · rw [hl]
    show "password" ∉ Body.keys _
    rw [hk]; decide
  · rw [hl]
    show "passwordHash" ∉ Body.keys _
    rw [hk]; decide

/-- Witness of C5: the toy bcrypt, the empty store, user `a` with password `p`. -/
theorem signup_then_login_witness :
    (∀ p s, toyBcrypt.compare p (toyBcrypt.hash p s) = true)
    ∧ (signup toyBcrypt ⟨some ⟨[], []⟩⟩ ⟨none⟩ (ObjectId.rep 1) "s" (some "a") (some "p")).1.status
        = 201
    ∧ login toyBcrypt
          (signup toyBcrypt ⟨some ⟨[], []⟩⟩ ⟨none⟩ (ObjectId.rep 1) "s" (some "a") (some "p")).2.1
          (signup toyBcrypt ⟨some ⟨[], []⟩⟩ ⟨none⟩ (ObjectId.rep 1) "s" (some "a") (some "p")).2.2
          (some "a") (some "p")
        = (⟨200, .object [("message", .text "로그인 성공"),
              ("user", .object [("username", .text "a")])]⟩,
           ⟨some ⟨ObjectId.rep 1, "a", "s$p"⟩⟩) :=
  have h := signup_then_login toyBcrypt ⟨[], []⟩ ⟨none⟩ (ObjectId.rep 1) "s" "a" "p"
    toyBcrypt_verifies (by decide) (by decide) (by simp) (by decide)
  ⟨toyBcrypt_verifies, by rw [h.1], h.2.1⟩

/-- C6: with the database connected and a non-empty username and password,
`POST /login` responds 401 when no stored user has the username, and also 401
when some stored user has it and the password verifies against no stored hash
of that username; the two error messages differ, and in both cases the session
after the request is the session before it. -/
theorem login_failures (bc : Bcrypt) (db : Db) (session : Session) (name pw : String)
    (hn : name ≠ "") (hp : pw ≠ "") :
    ((∀ u ∈ db.user, u.username ≠ name) →
        login bc ⟨some db⟩ session (some name) (some pw)
          = (⟨401, .object [("error", .text "사용자가 존재하지 않습니다.")]⟩, session))
    ∧ ((∃ u ∈ db.user, u.username = name) →
        (∀ u ∈ db.user, u.username = name → bc.compare pw u.password = false) →
        login bc ⟨some db⟩ session (some name) (some pw)
          = (⟨401, .object [("error", .text "비밀번호가 일치하지 않습니다.")]⟩, session))
    ∧ ("사용자가 존재하지 않습니다." : String) ≠ "비밀번호가 일치하지 않습니다." := by
  refine ⟨?_, ?_, by decide⟩
  · intro hnone
    have hf := findOne_username_none db.user name hnone
    simp [login, loginTry, truthy, Server.db, bind, Except.bind, pure, Except.pure, hn, hp, hf,
      errorBody]
  · intro hex hbad
    obtain ⟨v, hv, hvm, hvn⟩ := findOne_username_some db.user name hex
    have hc := hbad v hvm hvn
    simp [login, loginTry, truthy, Server.db, bind, Except.bind, pure, Except.pure, hn, hp, hv,
      hc, errorBody]

/-- Witness of C6: user `a` with the hash of `p`; the logins `b`/`q` and `a`/`q`. -/
theorem login_failures_witness :
    login toyBcrypt ⟨some ⟨[], [⟨ObjectId.rep 1, "a", "s$p"⟩]⟩⟩ ⟨none⟩ (some "b") (some "q")
        = (⟨401, .object [("error", .text "사용자가 존재하지 않습니다.")]⟩, ⟨none⟩)
    ∧ login toyBcrypt ⟨some ⟨[], [⟨ObjectId.rep 1, "a", "s$p"⟩]⟩⟩ ⟨none⟩ (some "a") (some "q")
        = (⟨401, .object [("error", .text "비밀번호가 일치하지 않습니다.")]⟩, ⟨none⟩) :=
  ⟨(login_failures toyBcrypt ⟨[], [⟨ObjectId.rep 1, "a", "s$p"⟩]⟩ ⟨none⟩ "b" "q"
      (by decide) (by decide)).1 (by decide),
   (login_failures toyBcrypt ⟨[], [⟨ObjectId.rep 1, "a", "s$p"⟩]⟩ ⟨none⟩ "a" "q"
      (by decide) (by decide)).2.1 (by decide) (by decide)⟩

/-! ## The unique-id invariant of the post collection -/

theorem deleteOne_sublist {α : Type} (f : α → Bool) (l : List α) :
    List.Sublist (deleteOne f l).1 l := by
  induction l with
  | nil => exact List.Sublist.refl _
  | cons d ds ih =>
    by_cases hd : f d = true
    · simp only [deleteOne, hd, if_true]
      exact List.sublist_cons_self d ds
    · simp only [deleteOne, hd]
      exact List.Sublist.cons₂ d ih

theorem updateOne_ids (f : Post → Bool) (u : Post → Post) (hu : ∀ p, (u p)._id = p._id)
    (l : List Post) : (updateOne f u l).1.map Post._id = l.map Post._id := by
  induction l with
  | nil => rfl
  | cons d ds ih =>
    by_cases hd : f d = true
    · simp [updateOne, hd, hu]
    · simp [updateOne, hd, ih]

theorem postContent_preserves_postsOk (sv : Server) (gen : ObjectId)
    (title content : Option JVal) (h : postsOk sv) :
    postsOk (postContent sv gen title content).2 := by
  obtain ⟨db, hdb, hu⟩ := h
  have hsv : sv = ⟨some db⟩ := by cases sv; simp_all
  subst hsv
  by_cases hf : truthy title = false ∨ truthy content = false
  · rw [postContent_of_falsy _ gen title content hf]
    exact ⟨db, rfl, hu⟩
  · have ht : truthy title = true := by
      cases h1 : truthy title with
      | false => exact absurd (Or.inl h1) hf
      | true => rfl
    have hc : truthy content = true := by
      cases h1 : truthy content with
      | false => exact absurd (Or.inr h1) hf
      | true => rfl
    cases title with
    | none => simp [truthy] at ht
    | some t =>
      cases content with
      | none => simp [truthy] at hc
      | some c =>
        by_cases hfresh : ∀ p ∈ db.post, p._id ≠ gen
        · rw [postContent_of_fresh db gen t c ht hc hfresh]
          refine ⟨_, rfl, ?_⟩
          unfold uniqueIds at *
          simp only [List.map_append, List.map_cons, List.map_nil]
          rw [List.nodup_append]
          refine ⟨hu, List.nodup_singleton _, ?_⟩
          intro a ha hb
          rw [List.mem_singleton] at hb
          obtain ⟨p, hp, hpa⟩ := List.mem_map.mp ha
          exact hfresh p hp (hpa.trans hb)
        · have hins : insertOne Post._id ⟨gen, t, c⟩ db.post = .error .duplicateKey := by
            by_contra hne
            exact hfresh ((insertOne_ok_iff _ _ _).mp hne)
          have : postContent ⟨some db⟩ gen (some t) (some c) = (dbError, ⟨some db⟩) := by
            simp [postContent, postContentTry, Server.db, bind, Except.bind, ht, hc, hins]
          rw [this]
          exact ⟨db, rfl, hu⟩

theorem deleteContent_preserves_postsOk (sv : Server) (postId : String) (h : postsOk sv) :
    postsOk (deleteContent sv postId).2 := by
  obtain ⟨db, hdb, hu⟩ := h
  have hsv : sv = ⟨some db⟩ := by cases sv; simp_all
  subst hsv
  cases hid : ObjectId.new postId with
  | error e =>
    have : deleteContent ⟨some db⟩ postId = (dbError, ⟨some db⟩) := by
      simp [deleteContent, deleteContentTry, Server.db, hid, bind, Except.bind]
    rw [this]
    exact ⟨db, rfl, hu⟩
  | ok oid =>
    have hsub := deleteOne_sublist (fun p : Post => p._id == oid) db.post
    have hu2 : uniqueIds (deleteOne (fun p : Post => p._id == oid) db.post).1 :=
      List.Nodup.sublist (List.Sublist.map Post._id hsub) hu
    by_cases hcount : (deleteOne (fun p : Post => p._id == oid) db.post).2 = 0
    · have : (deleteContent ⟨some db⟩ postId).2
          = ⟨some ⟨(deleteOne (fun p : Post => p._id == oid) db.post).1, db.user⟩⟩ := by
        simp [deleteContent, deleteContentTry, Server.db, hid, bind, Except.bind, pure,
          Except.pure, hcount]
      rw [this]
      exact ⟨_, rfl, hu2⟩
    · have : (deleteContent ⟨some db⟩ postId).2
          = ⟨some ⟨(deleteOne (fun p : Post => p._id == oid) db.post).1, db.user⟩⟩ := by
        simp [deleteContent, deleteContentTry, Server.db, hid, bind, Except.bind, pure,
          Except.pure, hcount]
      rw [this]
      exact ⟨_, rfl, hu2⟩

theorem putContent_preserves_postsOk (sv : Server) (postId : String)
    (title content : Option JVal) (h : postsOk sv) :
    postsOk (putContent sv postId title content).2 := by
  obtain ⟨db, hdb, hu⟩ := h
  have hsv : sv = ⟨some db⟩ := by cases sv; simp_all
  subst hsv
  by_cases hf : truthy title = false ∨ truthy content = false
  · rw [putContent_of_falsy _ postId title content hf]
    exact ⟨db, rfl, hu⟩
  · have ht : truthy title = true := by
      cases h1 : truthy title with
      | false => exact absurd (Or.inl h1) hf
      | true => rfl
    have hc : truthy content = true := by
      cases h1 : truthy content with
      | false => exact absurd (Or.inr h1) hf
      | true => rfl
    cases hid : ObjectId.new postId with
    | error e =>
      have : putContent ⟨some db⟩ postId title content = (dbError, ⟨some db⟩) := by
        simp [putContent, putContentTry, Server.db, hid, bind, Except.bind, ht, hc]
      rw [this]
      exact ⟨db, rfl, hu⟩
    | ok oid =>
      have hids := updateOne_ids (fun p : Post => p._id == oid)
        (fun p => { p with title := title.getD .null, content := content.getD .null })
        (fun _ => rfl) db.post
      have hsv2 : (putContent ⟨some db⟩ postId title content).2
          = ⟨some ⟨(updateOne (fun p : Post => p._id == oid)
              (fun p => { p with title := title.getD .null, content := content.getD .null })
              db.post).1, db.user⟩⟩ := by
        by_cases hcount : (updateOne (fun p : Post => p._id == oid)
              (fun p => { p with title := title.getD .null, content := content.getD .null })
              db.post).2 = 0
        · simp [putContent, putContentTry, Server.db, hid, bind, Except.bind, pure,
            Except.pure, ht, hc, hcount]
        · cases hfo : findOne (fun p : Post => p._id == oid)
              (updateOne (fun p : Post => p._id == oid)
                (fun p => { p with title := title.getD .null, content := content.getD .null })
                db.post).1 with
          | none =>
            simp [putContent, putContentTry, Server.db, hid, bind, Except.bind, pure,
              Except.pure, ht, hc, hcount, hfo]
          | some q =>
            simp [putContent, putContentTry, Server.db, hid, bind, Except.bind, pure,
              Except.pure, ht, hc, hcount, hfo]
      rw [hsv2]
      refine ⟨_, rfl, ?_⟩
      unfold uniqueIds at *
      rw [hids]; exact hu

end MyBoard
